import Mathlib

/-
Verification of the net_stats asynchronous metrics backend.

The Go source is shallowly embedded: byte buffers become lists of bytes,
the connection is a script of flush outcomes supplied by the environment,
the protocol codec is a record of functions returning the appended bytes
and an optional error, and every side effect (reported errors, fallback
diagnostics written to stderr) is returned explicitly. Go panics are
modelled with Except where they can escape, and resolved to ordinary
values where the source recovers them. time.Duration is an int64 count
of nanoseconds, modelled as Int with explicit two-complement wrap where
overflow can occur.
-/

namespace NetStats

/-- Bytes are modelled as natural numbers; only identity matters. -/
abbrev Byte := Nat

/-- Metric descriptors: the engine only ever reads the metric name
(for failure messages), so a metric is its name. -/
abbrev Metric := String

/-- Errors flowing through the engine. Queue-related errors name the
dropped metric, as the source builds them with fmt.Errorf on the metric
name; all other errors (dial, codec, deadline, write) originate outside
the engine and are carried as tagged values. -/
inductive Err where
  | queueFull (metric : String)
  | queueClosed (metric : String)
  | external (tag : String)
deriving DecidableEq, Repr

/-- Behaviour of the user-supplied failure callback config.Fail: for each
error it either returns normally (none) or panics with a value (some v).
Its ordinary side effects are outside the model. -/
abbrev FailSpec := Err → Option String

/-- Line written by printPanic to the fallback sink:
fmt.Fprintf(w, "panic: %v [recovered]\n", v). -/
def printPanic (v : String) : String := "panic: " ++ v ++ " [recovered]"

/-- Stand-in for the goroutine stack dump written by printStack. -/
def stackTraceLine : String := "goroutine stack trace"

/-- Observable side effects of a worker step: errors handed to the
failure callback, and lines written to the fallback stderr sink. -/
structure Eff where
  reported : List Err
  stderr : List String
deriving DecidableEq, Repr

/-- No side effect. -/
def Eff.nil : Eff := ⟨[], []⟩

/-- Sequencing of side effects. -/
def Eff.app (a b : Eff) : Eff := ⟨a.reported ++ b.reported, a.stderr ++ b.stderr⟩

/-- handleError(err, config): invokes config.Fail(err) guarded by
handlePanic(os.Stderr). The callback is always invoked exactly once; if
it panics, printPanic and printStack write the diagnostic to stderr and
the panic is swallowed, so handleError always returns normally. -/
def handleError (err : Err) (fail : FailSpec) : Eff :=
  { reported := [err]
    stderr :=
      match fail err with
      | none => []
      | some v => [printPanic v, stackTraceLine] }

/-- Environment-scripted outcome of one flush attempt on a connection:
the error returned by conn.SetWriteDeadline, and the error returned by
conn.Write when the deadline was set successfully. -/
structure FlushOutcome where
  deadlineErr : Option Err
  writeErr : Option Err
deriving DecidableEq, Repr

/-- A connection is the script of outcomes of the successive flushes
performed on it; an exhausted script means every later flush succeeds. -/
abbrev Conn := List FlushOutcome

/-- Next scripted outcome of a connection, and the connection afterwards. -/
def Conn.next (c : Conn) : FlushOutcome × Conn :=
  match c with
  | [] => (⟨none, none⟩, [])
  | o :: rest => (o, rest)

/-- The pluggable wire codec (Protocol interface). Each operation is
given the metric and value and returns the bytes it appends to the
buffer (including any partial bytes written before failing) together
with the error it returns. A float64 is carried as its bit pattern; a
time.Duration as a count of nanoseconds. -/
structure Protocol where
  writeSet : Metric → Nat → List Byte × Option Err
  writeAdd : Metric → Nat → List Byte × Option Err
  writeObserve : Metric → Int → List Byte × Option Err

/-- Degenerate codec used when no protocol is configured. -/
def Protocol.nil : Protocol :=
  ⟨fun _ _ => ([], none), fun _ _ => ([], none), fun _ _ => ([], none)⟩

/-- The dynamic value stored in a job (Go interface value): either a
float64 (by bit pattern) or a time.Duration (nanoseconds). -/
inductive Value where
  | float (bits : Nat)
  | duration (ns : Int)
deriving DecidableEq, Repr

/-- A failed Go type assertion v.(float64) or v.(time.Duration): a
runtime panic that nothing in the worker recovers. -/
inductive AssertPanic where
  | badFloat
  | badDuration
deriving DecidableEq, Repr

/-- The writer function type: given the protocol, metric and dynamic
value, runs the type assertion and the codec call; the assertion failure
is an escaping panic. -/
abbrev Writer := Protocol → Metric → Value → Except AssertPanic (List Byte × Option Err)

/-- func set: p.WriteSet(w, m, v.(float64)). -/
def set : Writer := fun p m v =>
  match v with
  | Value.float x => Except.ok (p.writeSet m x)
  | _ => Except.error AssertPanic.badFloat

/-- func add: p.WriteAdd(w, m, v.(float64)). -/
def add : Writer := fun p m v =>
  match v with
  | Value.float x => Except.ok (p.writeAdd m x)
  | _ => Except.error AssertPanic.badFloat

/-- func observe: p.WriteObserve(w, m, v.(time.Duration)). -/
def observe : Writer := fun p m v =>
  match v with
  | Value.duration d => Except.ok (p.writeObserve m d)
  | _ => Except.error AssertPanic.badDuration

/-- One queued metric event. -/
structure Job where
  metric : Metric
  value : Value
  write : Writer

/-- Job built by backend.Set: value is a float64, writer is set. -/
def setJob (m : Metric) (v : Nat) : Job := ⟨m, Value.float v, set⟩

/-- Job built by backend.Add: value is a float64, writer is add. -/
def addJob (m : Metric) (v : Nat) : Job := ⟨m, Value.float v, add⟩

/-- Job built by backend.Observe: value is a time.Duration, writer is
observe. -/
def observeJob (m : Metric) (v : Int) : Job := ⟨m, Value.duration v, observe⟩

/-- Stand-in for the dial function type; dial outcomes are supplied to
connect as an explicit oracle list, so only nil-ness of this field
matters to the embedded code (setConfigDefaults). -/
abbrev DialSpec := Nat → Except Err Conn

/-- Stand-in for net.Dial, the default dial function. -/
def netDial : DialSpec := fun _ => Except.ok []

/-- makeFailFunc(os.Stderr): the default failure callback writes the
error to stderr and never panics. -/
def makeFailFunc : FailSpec := fun _ => none

/-- The Config structure of the source. Durations are int64 nanosecond
counts; the function-valued fields Dial and Fail are optional to model
Go nil checks. -/
structure Config where
  protocol : Option Protocol
  network : String
  address : String
  bufferSize : Int
  queueSize : Int
  retryAfterMin : Int
  retryAfterMax : Int
  flushTimeout : Int
  writeTimeout : Int
  dial : Option DialSpec
  fail : Option FailSpec

/-- The configured protocol (defaults applied before the worker runs). -/
def Config.proto (c : Config) : Protocol := c.protocol.getD Protocol.nil

/-- The configured failure callback (defaults applied before the worker
runs). -/
def Config.failFn (c : Config) : FailSpec := c.fail.getD makeFailFunc

/-- setConfigDefaults: replaces each zero-valued (or nil) field by its
default, in source order. -/
def setConfigDefaults (config : Config) : Config :=
  let config := if config.bufferSize = 0 then { config with bufferSize := 512 } else config
  let config := if config.queueSize = 0 then { config with queueSize := 1000 } else config
  let config := if config.dial.isNone then { config with dial := some netDial } else config
  let config := if config.fail.isNone then { config with fail := some makeFailFunc } else config
  let config := if config.retryAfterMin = 0 then { config with retryAfterMin := 100000000 } else config
  let config := if config.retryAfterMax = 0 then { config with retryAfterMax := 15000000000 } else config
  let config := if config.flushTimeout = 0 then { config with flushTimeout := 5000000000 } else config
  let config := if config.writeTimeout = 0 then { config with writeTimeout := 1000000000 } else config
  config

/-- Two-complement wrap of a mathematical integer into int64, as Go
addition of time.Duration values overflows. -/
def wrap64 (x : Int) : Int := (x + 2 ^ 63) % 2 ^ 64 - 2 ^ 63

/-- func backoff(d, max): doubles d (int64 wrap) and caps it at max. -/
def backoff (d maxd : Int) : Int :=
  let d2 := wrap64 (d + d)
  if d2 > maxd then maxd else d2

/-- func connect(config) unrolled over an oracle of successive dial
outcomes. Each failed dial reports its error and sleeps for the current
retry delay, then the delay is doubled and capped; the first successful
dial ends the loop. The trace lists, in order, each failed attempt as
the pair (reported error, slept delay); the second component is the
connection when some dial in the oracle succeeded. An all-failure
oracle leaves the loop still retrying (none). -/
def connectLoop (outcomes : List (Except Err Conn)) (retryAfter maxd : Int) :
    List (Err × Int) × Option Conn :=
  match outcomes with
  | [] => ([], none)
  | Except.error e :: rest =>
      let r := connectLoop rest (backoff retryAfter maxd) maxd
      ((e, retryAfter) :: r.1, r.2)
  | Except.ok c :: _ => ([], some c)

/-- connect(config): the retry loop starts from the configured minimum
delay. -/
def connect (outcomes : List (Except Err Conn)) (config : Config) :
    List (Err × Int) × Option Conn :=
  connectLoop outcomes config.retryAfterMin config.retryAfterMax

/-- Result of a buffering-engine step: the connection afterwards (none
when it was closed and discarded), the buffer afterwards, the bytes
handed to conn.Write by a flush in this step, and the side effects. -/
structure WriteRes where
  conn : Option Conn
  buf : List Byte
  sent : List Byte
  eff : Eff

/-- func flushN(conn, buf, config, n): with no connection it does
nothing. Otherwise it sets the write deadline; on a deadline error the
connection is closed and discarded and the error reported, with the
buffer untouched. Otherwise buf.Next(n) removes the first n bytes from
the buffer and hands them to conn.Write; on a write error the
connection is closed and discarded and the error reported, the n bytes
having already been consumed from the buffer; on success the connection
is kept. -/
def flushN (conn : Option Conn) (buf : List Byte) (config : Config) (n : Nat) : WriteRes :=
  match conn with
  | none => ⟨none, buf, [], Eff.nil⟩
  | some c =>
      let o := (Conn.next c).1
      match o.deadlineErr with
      | some e => ⟨none, buf, [], handleError e config.failFn⟩
      | none =>
          let chunk := buf.take n
          let rest := buf.drop n
          match o.writeErr with
          | some e => ⟨none, rest, chunk, handleError e config.failFn⟩
          | none => ⟨some (Conn.next c).2, rest, chunk, Eff.nil⟩

/-- func flush(conn, buf, config): flushN over the whole buffer. -/
def flush (conn : Option Conn) (buf : List Byte) (config : Config) : WriteRes :=
  flushN conn buf config buf.length

/-- func write(conn, buf, job, config): records the buffer length
before encoding, runs the writer (type assertion plus codec; an
assertion failure is an escaping panic). A codec error is reported and
the job dropped with no flush, the buffer keeping its old content plus
the partial bytes. Otherwise, when the new length reaches the
threshold, flushN is called with the old length, or the whole length
when the buffer was empty before. -/
def write (conn : Option Conn) (buf : List Byte) (j : Job) (config : Config) :
    Except AssertPanic WriteRes :=
  let n1 := buf.length
  match j.write config.proto j.metric j.value with
  | Except.error p => Except.error p
  | Except.ok (bs, some e) =>
      Except.ok ⟨conn, buf ++ bs, [], handleError e config.failFn⟩
  | Except.ok (bs, none) =>
      let buf2 := buf ++ bs
      let n2 := buf2.length
      if (n2 : Int) ≥ config.bufferSize then
        let n := if n1 = 0 then n2 else n1
        Except.ok (flushN conn buf2 config n)
      else
        Except.ok ⟨conn, buf2, [], Eff.nil⟩

/-- The bounded job channel between producers and the worker: a
capacity, the jobs currently buffered, and whether close(b.jobs) has
been called. -/
structure Queue where
  cap : Nat
  buffered : List Job
  closed : Bool

/-- The runtime panic raised by sending on a closed channel. -/
inductive SendPanic where
  | sendOnClosed
deriving DecidableEq, Repr

/-- The select with a default branch: sending on a closed channel
panics; otherwise the send succeeds exactly when there is room, and the
Bool records whether the job was enqueued (false takes the default
branch). -/
def chanTrySend (j : Job) (q : Queue) : Except SendPanic (Queue × Bool) :=
  if q.closed then Except.error SendPanic.sendOnClosed
  else if q.buffered.length < q.cap then
    Except.ok ({ q with buffered := q.buffered ++ [j] }, true)
  else Except.ok (q, false)

/-- func enqueue(job, jobs, fail): tries a non-blocking send. The
deferred recover turns the send-on-closed panic into a call of fail
with the queue-closed error; the default branch calls fail with the
queue-full error directly, with no panic protection, so a panicking
callback there unwinds into the deferred recover, which then calls fail
again with the queue-closed error; a panic from that last call escapes
to the producer. Result: the queue afterwards, the errors the callback
was invoked with in order, and the panic value escaping to the caller,
if any. -/
def enqueue (j : Job) (q : Queue) (fail : FailSpec) :
    Queue × List Err × Option String :=
  match chanTrySend j q with
  | Except.error _ =>
      match fail (Err.queueClosed j.metric) with
      | none => (q, [Err.queueClosed j.metric], none)
      | some v => (q, [Err.queueClosed j.metric], some v)
  | Except.ok (q2, true) => (q2, [], none)
  | Except.ok (q2, false) =>
      match fail (Err.queueFull j.metric) with
      | none => (q2, [Err.queueFull j.metric], none)
      | some _ =>
          match fail (Err.queueClosed j.metric) with
          | none => (q2, [Err.queueFull j.metric, Err.queueClosed j.metric], none)
          | some v => (q2, [Err.queueFull j.metric, Err.queueClosed j.metric], some v)

/-- close(b.jobs): closing an already-closed channel panics. -/
def closeChan (q : Queue) : Except SendPanic Queue :=
  if q.closed then Except.error SendPanic.sendOnClosed
  else Except.ok { q with closed := true }

/-- backend.Close: closes the job channel with a deferred bare recover,
so a second close is a swallowed panic; the second component is the
panic escaping to the caller, always none. (The deferred join.Wait,
which blocks until the worker loop has returned, is modelled by
runEvents running to completion below.) -/
def backendClose (q : Queue) : Queue × Option SendPanic :=
  match closeChan q with
  | Except.ok q2 => (q2, none)
  | Except.error _ => (q, none)

/-- One receive of the worker select loop: a job arrival or a tick of
the flush timer. The close of the job channel is received after the
whole event list. -/
inductive Event where
  | arrival (j : Job)
  | tick

/-- Observable actions of the worker loop, in order: a connect call, a
job processed, a timer flush, the final flush after the channel close. -/
inductive Action where
  | dialed
  | wrote (m : Metric)
  | ticked
  | closedFlush
deriving DecidableEq, Repr

/-- Result of running the worker loop to termination: the action trace,
the jobs handed to the buffering engine in order, the bytes still
buffered at exit, and the accumulated side effects. The deferred
conn.Close() runs at exit, so no open connection outlives the loop. -/
structure RunRes where
  actions : List Action
  processed : List Job
  finalBuf : List Byte
  eff : Eff

/-- Result of the dial-if-disconnected step at the top of a loop
iteration: the connection afterwards, the remaining connection supply,
and the actions performed (a dial or nothing). -/
structure EnsureRes where
  conn : Option Conn
  supply : List Conn
  pre : List Action

/-- The conditional at the top of every loop iteration:
if conn == nil { conn = connect(config) }. connect blocks until it has
a connection (see connectLoop), so it is abstracted by a supply of the
successive connections it returns; an exhausted supply yields
always-succeeding connections. -/
def ensureConn (conn : Option Conn) (supply : List Conn) : EnsureRes :=
  match conn with
  | none => ⟨some (supply.headD []), supply.tail, [Action.dialed]⟩
  | some c => ⟨some c, supply, []⟩

/-- func run(jobs, join, config), unrolled over the list of events the
select receives before the job channel reports closed. Every iteration
first dials when no connection is open, then processes the next event;
when the channel reports closed it performs a final full flush and
returns. An unrecovered type-assertion panic from a writer escapes. -/
def runEvents (conn : Option Conn) (buf : List Byte) (evs : List Event)
    (config : Config) (supply : List Conn) : Except AssertPanic RunRes :=
  match evs with
  | [] =>
      let t := ensureConn conn supply
      let f := flush t.conn buf config
      Except.ok ⟨t.pre ++ [Action.closedFlush], [], f.buf, f.eff⟩
  | Event.arrival j :: rest =>
      let t := ensureConn conn supply
      match write t.conn buf j config with
      | Except.error p => Except.error p
      | Except.ok w =>
          match runEvents w.conn w.buf rest config t.supply with
          | Except.error p => Except.error p
          | Except.ok r =>
              Except.ok ⟨t.pre ++ Action.wrote j.metric :: r.actions,
                j :: r.processed, r.finalBuf, w.eff.app r.eff⟩
  | Event.tick :: rest =>
      let t := ensureConn conn supply
      let f := flush t.conn buf config
      match runEvents f.conn f.buf rest config t.supply with
      | Except.error p => Except.error p
      | Except.ok r =>
          Except.ok ⟨t.pre ++ Action.ticked :: r.actions, r.processed,
            r.finalBuf, f.eff.app r.eff⟩

/-- The jobs carried by an event list, in arrival order. -/
def jobsOf (evs : List Event) : List Job :=
  evs.filterMap fun e =>
    match e with
    | Event.arrival j => some j
    | Event.tick => none

/-- Erase the fallback-sink output of a step result, keeping everything
else (used to state that the callback behaviour can only influence what
lands on stderr). -/
def WriteRes.erase (r : WriteRes) : WriteRes :=
  { r with eff := ⟨r.eff.reported, []⟩ }

/-- Erase the fallback-sink output of a run result. -/
def RunRes.erase (r : RunRes) : RunRes :=
  { r with eff := ⟨r.eff.reported, []⟩ }

/-- Concrete configuration used to evaluate the model on concrete
inputs; its retry minimum exceeds its retry maximum. -/
def cfg0 : Config :=
  { protocol := none, network := "tcp", address := "localhost:8125",
    bufferSize := 4, queueSize := 2, retryAfterMin := 2, retryAfterMax := 1,
    flushTimeout := 5, writeTimeout := 1, dial := none, fail := none }

/-- Concrete codec writing one byte per event, used to evaluate the
model on concrete inputs. -/
def protoOne : Protocol :=
  ⟨fun _ _ => ([1], none), fun _ _ => ([2], none), fun _ _ => ([3], none)⟩

/-- Concrete configuration with the one-byte codec and a two-byte flush
threshold. -/
def cfgW : Config :=
  { protocol := some protoOne, network := "tcp", address := "localhost:8125",
    bufferSize := 2, queueSize := 2, retryAfterMin := 1, retryAfterMax := 4,
    flushTimeout := 5, writeTimeout := 1, dial := none, fail := none }

/-- Claim C9: setConfigDefaults replaces each zero-valued duration or
size field by its default — BufferSize 512 bytes, QueueSize 1000 jobs,
RetryAfterMin 100ms, RetryAfterMax 15s, FlushTimeout 5s, WriteTimeout
1s (durations in nanoseconds) — and leaves every non-zero field
unchanged. -/
theorem C9_setConfigDefaults (c : Config) :
    (setConfigDefaults c).bufferSize = (if c.bufferSize = 0 then 512 else c.bufferSize) ∧
    (setConfigDefaults c).queueSize = (if c.queueSize = 0 then 1000 else c.queueSize) ∧
    (setConfigDefaults c).retryAfterMin =
      (if c.retryAfterMin = 0 then 100000000 else c.retryAfterMin) ∧
    (setConfigDefaults c).retryAfterMax =
      (if c.retryAfterMax = 0 then 15000000000 else c.retryAfterMax) ∧
    (setConfigDefaults c).flushTimeout =
      (if c.flushTimeout = 0 then 5000000000 else c.flushTimeout) ∧
    (setConfigDefaults c).writeTimeout =
      (if c.writeTimeout = 0 then 1000000000 else c.writeTimeout) := by
  obtain ⟨p, nw, ad, bs, qs, rmin, rmax, ft, wt, d, f⟩ := c
  simp only [setConfigDefaults]
  simp only [apply_ite Config.bufferSize, apply_ite Config.queueSize,
    apply_ite Config.retryAfterMin, apply_ite Config.retryAfterMax,
    apply_ite Config.flushTimeout, apply_ite Config.writeTimeout,
    apply_ite Config.dial, apply_ite Config.fail, ite_self]
  exact ⟨trivial, trivial, trivial, trivial, trivial, trivial⟩

/-- Claim C1, counterexample: when the write on the open connection
fails, the n bytes do not remain at the front of the buffer — they were
already consumed by buf.Next(n) before the failed write. Here all three
buffered bytes are gone after the failed flush, while the error is
still reported exactly once and the connection is discarded. -/
theorem C1_counterexample :
    (flushN (some [⟨none, some (Err.external "broken pipe")⟩]) [1, 2, 3] cfg0 3).eff.reported
        = [Err.external "broken pipe"] ∧
    (flushN (some [⟨none, some (Err.external "broken pipe")⟩]) [1, 2, 3] cfg0 3).conn = none ∧
    (flushN (some [⟨none, some (Err.external "broken pipe")⟩]) [1, 2, 3] cfg0 3).buf = [] ∧
    ¬ (flushN (some [⟨none, some (Err.external "broken pipe")⟩]) [1, 2, 3] cfg0 3).buf
        = [1, 2, 3] := by
  decide

/-- Claim C1 as amended: for every flush of n bytes via flushN — if no
connection is open the buffer is left unchanged and no error is
reported; if setting the write deadline fails, the connection is closed
and discarded, the error is reported exactly once, and all n bytes
remain at the front of the buffer; if the write fails, the connection
is closed and discarded and the error is reported exactly once, but the
n bytes were already removed from the front of the buffer by buf.Next
and are lost; on success exactly n bytes are removed from the front of
the buffer and handed to the connection. -/
theorem C1_flushN (buf : List Byte) (config : Config) (n : Nat) :
    (flushN none buf config n = ⟨none, buf, [], Eff.nil⟩) ∧
    (∀ (o : FlushOutcome) (rest : Conn) (e : Err), o.deadlineErr = some e →
      flushN (some (o :: rest)) buf config n =
        ⟨none, buf, [], handleError e config.failFn⟩ ∧
      (handleError e config.failFn).reported = [e]) ∧
    (∀ (o : FlushOutcome) (rest : Conn) (e : Err),
      o.deadlineErr = none → o.writeErr = some e →
      flushN (some (o :: rest)) buf config n =
        ⟨none, buf.drop n, buf.take n, handleError e config.failFn⟩ ∧
      (handleError e config.failFn).reported = [e]) ∧
    (∀ (o : FlushOutcome) (rest : Conn), o.deadlineErr = none → o.writeErr = none →
      flushN (some (o :: rest)) buf config n =
        ⟨some rest, buf.drop n, buf.take n, Eff.nil⟩) := by
  refine ⟨rfl, ?_, ?_, ?_⟩
  · intro o rest e hd
    constructor
    · simp [flushN, Conn.next, hd]
    · simp [handleError]
  · intro o rest e hd hw
    constructor
    · simp [flushN, Conn.next, hd, hw]
    · simp [handleError]
  · intro o rest hd hw
    simp [flushN, Conn.next, hd, hw]

/-- Claim C1, witness: the amended flushN behaviour evaluated on a
deadline failure, a write failure and a success at concrete inputs. -/
theorem C1_flushN_witness :
    (flushN (some [⟨some (Err.external "deadline"), none⟩]) [7, 8] cfg0 2 =
      ⟨none, [7, 8], [], handleError (Err.external "deadline") cfg0.failFn⟩ ∧
     (handleError (Err.external "deadline") cfg0.failFn).reported = [Err.external "deadline"]) ∧
    flushN (some [⟨none, none⟩]) [7, 8] cfg0 1 = ⟨some [], [8], [7], Eff.nil⟩ :=
  ⟨(C1_flushN [7, 8] cfg0 2).2.1 ⟨some (Err.external "deadline"), none⟩ [] _ rfl,
   (C1_flushN [7, 8] cfg0 1).2.2.2 ⟨none, none⟩ [] rfl rfl⟩

/-- Claim C8: when the codec returns an error while encoding a job, the
error is reported exactly once via the failure callback, the job is
dropped, no flush is attempted even if the buffer now meets the
threshold, the connection is unchanged, and the buffer keeps its
pre-encode content plus the partial bytes the codec wrote. -/
theorem C8_codec_error (conn : Option Conn) (buf : List Byte) (j : Job)
    (config : Config) (bs : List Byte) (e : Err)
    (henc : j.write config.proto j.metric j.value = Except.ok (bs, some e)) :
    ∃ r, write conn buf j config = Except.ok r ∧
      r.conn = conn ∧ r.buf = buf ++ bs ∧ r.sent = [] ∧
      r.eff.reported = [e] := by
  refine ⟨⟨conn, buf ++ bs, [], handleError e config.failFn⟩, ?_, rfl, rfl, rfl, ?_⟩
  · simp [write, henc]
  · simp [handleError]

/-- Claim C8, witness: a codec that writes two partial bytes and then
fails, on a buffer already holding one byte with threshold two:
reported once, no flush, connection kept. -/
theorem C8_codec_error_witness :
    ∃ r, write (some []) [9] ⟨"m", Value.float 0,
        fun _ _ _ => Except.ok ([5, 6], some (Err.external "bad metric"))⟩ cfgW
      = Except.ok r ∧
      r.conn = some [] ∧ r.buf = [9] ++ [5, 6] ∧ r.sent = [] ∧
      r.eff.reported = [Err.external "bad metric"] :=
  C8_codec_error (some []) [9]
    ⟨"m", Value.float 0, fun _ _ _ => Except.ok ([5, 6], some (Err.external "bad metric"))⟩
    cfgW [5, 6] (Err.external "bad metric") rfl

/-- Claim C2: for a job whose encoding succeeds, with before the buffer
length before encoding and after the length afterwards: below the
threshold nothing is flushed and the connection is untouched; at or
above the threshold with before = 0 the entire buffer is handed to the
connection; at or above the threshold with before nonzero exactly the
pre-existing before bytes are handed to the connection, leaving the
fresh bytes pending. The flushed cases are observed on a connection
whose write succeeds. -/
theorem C2_write_threshold (buf : List Byte) (j : Job) (config : Config)
    (bs : List Byte)
    (henc : j.write config.proto j.metric j.value = Except.ok (bs, none)) :
    (((buf.length + bs.length : Nat) : Int) < config.bufferSize →
      ∀ conn, write conn buf j config = Except.ok ⟨conn, buf ++ bs, [], Eff.nil⟩) ∧
    (((buf.length + bs.length : Nat) : Int) ≥ config.bufferSize → buf = [] →
      write (some []) buf j config = Except.ok ⟨some [], [], bs, Eff.nil⟩) ∧
    (((buf.length + bs.length : Nat) : Int) ≥ config.bufferSize → buf ≠ [] →
      write (some []) buf j config = Except.ok ⟨some [], bs, buf, Eff.nil⟩) := by
  refine ⟨?_, ?_, ?_⟩
  · intro hlt conn
    simp only [write, henc, List.length_append]
    rw [if_neg (not_le.mpr hlt)]
  · intro hge hnil
    subst hnil
    simp only [write, henc, List.length_append, List.nil_append, List.length_nil]
    rw [if_pos (by simpa using hge)]
    simp [flushN, Conn.next, List.drop_length, List.take_length]
  · intro hge hne
    simp only [write, henc, List.length_append]
    rw [if_pos (by simpa using hge),
      if_neg (by simpa [List.length_eq_zero] using hne)]
    simp [flushN, Conn.next, List.drop_left, List.take_left]

/-- Claim C2, witness: with a codec writing one byte per event and a
two-byte threshold — an encode into an empty buffer stays below the
threshold and does not flush; an encode into a one-byte buffer reaches
the threshold and flushes exactly the one pre-existing byte, leaving
the fresh byte pending. -/
theorem C2_write_threshold_witness :
    write none [] (setJob "m" 5) cfgW = Except.ok ⟨none, [1], [], Eff.nil⟩ ∧
    write (some []) [4] (setJob "m" 5) cfgW = Except.ok ⟨some [], [1], [4], Eff.nil⟩ :=
  ⟨(C2_write_threshold [] (setJob "m" 5) cfgW [1] rfl).1 (by decide) none,
   (C2_write_threshold [4] (setJob "m" 5) cfgW [1] rfl).2.2 (by decide) (by simp)⟩

/-- A callback that panics on queue-full errors, used to evaluate the
model. -/
def failBoom : FailSpec := fun e =>
  match e with
  | Err.queueFull _ => some "boom"
  | _ => none

/-- Claim C5, counterexample: submitting to a full queue with a failure
callback that panics on the queue-full report makes enqueue invoke the
callback twice — first with the queue-full error, then (from the
deferred recover, wrongly) with the queue-closed error — so the failure
is not reported exactly once. -/
theorem C5_counterexample :
    (enqueue (setJob "m" 1) ⟨0, [], false⟩ failBoom).2.1
        = [Err.queueFull "m", Err.queueClosed "m"] ∧
    ¬ (enqueue (setJob "m" 1) ⟨0, [], false⟩ failBoom).2.1 = [Err.queueFull "m"] := by
  decide

/-- Claim C5 as amended: provided the failure callback returns normally
on the reports it receives, every submission via Set, Add or Observe —
if the queue has been closed the job is discarded and exactly one
queue-closed failure naming the metric is reported; if the queue is at
capacity the job is discarded and exactly one queue-full failure naming
the metric is reported; otherwise the job is appended; in all cases the
call returns without blocking and no panic escapes to the producer. -/
theorem C5_enqueue (j : Job) (q : Queue) (fail : FailSpec)
    (hfull : fail (Err.queueFull j.metric) = none)
    (hclosed : fail (Err.queueClosed j.metric) = none) :
    (q.closed = true → enqueue j q fail = (q, [Err.queueClosed j.metric], none)) ∧
    (q.closed = false → q.cap ≤ q.buffered.length →
      enqueue j q fail = (q, [Err.queueFull j.metric], none)) ∧
    (q.closed = false → q.buffered.length < q.cap →
      enqueue j q fail = ({ q with buffered := q.buffered ++ [j] }, [], none)) := by
  refine ⟨?_, ?_, ?_⟩
  · intro hc
    simp [enqueue, chanTrySend, hc, hclosed]
  · intro hc hcap
    simp [enqueue, chanTrySend, hc, Nat.not_lt.mpr hcap, hfull]
  · intro hc hcap
    simp [enqueue, chanTrySend, hc, hcap]

/-- Claim C5, witness: the amended enqueue behaviour evaluated at a
closed queue, a full queue and a queue with room, under the default
(non-panicking) callback. -/
theorem C5_enqueue_witness :
    enqueue (setJob "m" 1) ⟨2, [], true⟩ makeFailFunc
      = (⟨2, [], true⟩, [Err.queueClosed "m"], none) ∧
    enqueue (setJob "m" 1) ⟨0, [], false⟩ makeFailFunc
      = (⟨0, [], false⟩, [Err.queueFull "m"], none) ∧
    enqueue (setJob "m" 1) ⟨2, [], false⟩ makeFailFunc
      = (⟨2, [setJob "m" 1], false⟩, [], none) :=
  ⟨(C5_enqueue (setJob "m" 1) ⟨2, [], true⟩ makeFailFunc rfl rfl).1 rfl,
   (C5_enqueue (setJob "m" 1) ⟨0, [], false⟩ makeFailFunc rfl rfl).2.1 rfl (by simp),
   (C5_enqueue (setJob "m" 1) ⟨2, [], false⟩ makeFailFunc rfl rfl).2.2 rfl (by simp)⟩

/-- wrap64 is the identity on values representable in int64. -/
theorem wrap64_eq_self (x : Int) (h0 : -(2 ^ 63) ≤ x) (h1 : x < 2 ^ 63) :
    wrap64 x = x := by
  unfold wrap64
  have h2 : (2 : Int) ^ 64 = 2 * 2 ^ 63 := by norm_num
  rw [Int.emod_eq_of_lt (by linarith) (by linarith)]
  ring

/-- backoff doubles the delay and caps it at the maximum, when the
doubling cannot overflow int64. -/
theorem backoff_eq_min (d maxd : Int) (h0 : 0 ≤ d) (hlt : d < 2 ^ 62) :
    backoff d maxd = min (2 * d) maxd := by
  have h63 : (2 : Int) ^ 63 = 2 * 2 ^ 62 := by norm_num
  have hpos : (0 : Int) ≤ 2 ^ 63 := by positivity
  unfold backoff
  rw [wrap64_eq_self (d + d) (by linarith) (by linarith)]
  rcases le_or_lt (d + d) maxd with h | h
  · rw [if_neg (not_lt.mpr h), min_eq_left (by linarith)]
    ring
  · rw [if_pos h, min_eq_right (by linarith)]

/-- Delays of the retry loop on an all-failure dial oracle: the loop
never gives up — it slept once per failed attempt and still has no
connection. -/
theorem connectLoop_all_fail (e : Err) (maxd : Int) :
    ∀ (k : Nat) (d : Int),
      (connectLoop (List.replicate k (Except.error e)) d maxd).2 = none ∧
      (connectLoop (List.replicate k (Except.error e)) d maxd).1.length = k := by
  intro k
  induction k with
  | zero => intro d; simp [connectLoop]
  | succ n ih =>
      intro d
      simp only [List.replicate_succ, connectLoop]
      exact ⟨(ih (backoff d maxd)).1, by simp [(ih (backoff d maxd)).2]⟩

/-- The saturating-doubling step expressed against the closed formula. -/
theorem min_backoff_pow (d maxd : Int) (i : Nat) (h0 : 0 ≤ d) (h1 : d ≤ maxd) :
    min (min (2 * d) maxd * 2 ^ i) maxd = min (d * 2 ^ (i + 1)) maxd := by
  have hp0 : (0 : Int) < 2 ^ i := by positivity
  have hp : (1 : Int) ≤ 2 ^ i := hp0
  rcases le_or_lt (2 * d) maxd with h | h
  · rw [min_eq_left h]
    congr 1
    ring
  · have hmax0 : (0 : Int) ≤ maxd := le_trans h0 h1
    have e1 : maxd ≤ maxd * 2 ^ i := le_mul_of_one_le_right hmax0 hp
    have e2 : 2 * d ≤ 2 * d * 2 ^ i := le_mul_of_one_le_right (by linarith) hp
    have e3 : maxd ≤ d * 2 ^ (i + 1) := by
      have hpow : (2 : Int) ^ (i + 1) = 2 ^ i * 2 := pow_succ 2 i
      calc maxd ≤ 2 * d := h.le
        _ ≤ 2 * d * 2 ^ i := e2
        _ = d * 2 ^ (i + 1) := by rw [hpow]; ring
    rw [min_eq_right h.le, min_eq_right e1, min_eq_right e3]

/-- The delay trace of the retry loop over k failed dials followed by a
success: attempt i (counting from zero) sleeps min(d0 * 2 ^ i, maxd)
when the loop starts at delay d0, and the loop ends on the first
success. -/
theorem connectLoop_backoff_formula (e : Err) (c : Conn) (maxd : Int)
    (hmax : maxd < 2 ^ 62) :
    ∀ (k : Nat) (d : Int), 0 ≤ d → d ≤ maxd →
      connectLoop (List.replicate k (Except.error e) ++ [Except.ok c]) d maxd
        = ((List.range k).map (fun i => (e, min (d * 2 ^ i) maxd)), some c) := by
  intro k
  induction k with
  | zero => intro d h0 h1; simp [connectLoop]
  | succ n ih =>
      intro d h0 h1
      have hd62 : d < 2 ^ 62 := lt_of_le_of_lt h1 hmax
      have hb : backoff d maxd = min (2 * d) maxd := backoff_eq_min d maxd h0 hd62
      have h0b : 0 ≤ backoff d maxd := by
        rw [hb]; exact le_min (by linarith) (le_trans h0 h1)
      have h1b : backoff d maxd ≤ maxd := by rw [hb]; exact min_le_right _ _
      have ihd := ih (backoff d maxd) h0b h1b
      simp only [List.replicate_succ, List.cons_append, connectLoop, List.append_eq]
        at ihd ⊢
      rw [ihd, List.range_succ_eq_map]
      dsimp only
      simp only [List.map_cons, List.map_map, Prod.mk.injEq, and_true]
      congr 1
      · rw [pow_zero, mul_one, min_eq_left h1]
      · refine List.map_congr_left fun i _ => ?_
        simp only [Function.comp_apply, Nat.succ_eq_add_one]
        rw [hb, min_backoff_pow d maxd i h0 h1]

/-- Claim C3, counterexample: with RetryAfterMin = 2ns and RetryAfterMax
= 1ns (both nonzero, so defaulting leaves them alone), the first failed
dial attempt sleeps the configured minimum of 2ns, not
min(RetryAfterMin * 2 ^ 0, RetryAfterMax) = 1ns: the claimed delay
formula fails when the configured minimum exceeds the configured
maximum. -/
theorem C3_counterexample :
    (connect [Except.error (Err.external "connection refused")] cfg0).1
        = [(Err.external "connection refused", 2)] ∧
    ¬ ((2 : Int) = min (cfg0.retryAfterMin * 2 ^ (1 - 1)) cfg0.retryAfterMax) := by
  decide

/-- Claim C3 as amended: within a single connect() call whose
configuration satisfies 0 ≤ RetryAfterMin ≤ RetryAfterMax < 2^62 ns, the
k-th failed dial attempt (k counted from one) reports the dial error and
sleeps min(RetryAfterMin * 2 ^ (k-1), RetryAfterMax): the delay starts
at the configured minimum (as every fresh connect() call does), doubles
after each failure and saturates at the configured maximum; connect
keeps retrying on an all-failure oracle and returns exactly at the
first successful dial. -/
theorem C3_connect_backoff (config : Config) (e : Err) (c : Conn) (k : Nat)
    (h0 : 0 ≤ config.retryAfterMin)
    (h1 : config.retryAfterMin ≤ config.retryAfterMax)
    (h2 : config.retryAfterMax < 2 ^ 62) :
    connect (List.replicate k (Except.error e) ++ [Except.ok c]) config
      = ((List.range k).map
          (fun i => (e, min (config.retryAfterMin * 2 ^ i) config.retryAfterMax)),
         some c) ∧
    (connect (List.replicate k (Except.error e)) config).2 = none ∧
    (connect (List.replicate k (Except.error e)) config).1.length = k :=
  ⟨connectLoop_backoff_formula e c _ h2 k _ h0 h1,
   (connectLoop_all_fail e _ k _).1,
   (connectLoop_all_fail e _ k _).2⟩

/-- Claim C3, witness: with minimum 1ns and maximum 4ns, three failed
dials followed by a success sleep 1, 2 and 4 nanoseconds and the loop
returns the dialled connection. -/
theorem C3_connect_backoff_witness :
    connect (List.replicate 3 (Except.error (Err.external "refused")) ++ [Except.ok []])
        cfgW
      = ((List.range 3).map
          (fun i => (Err.external "refused", min (cfgW.retryAfterMin * 2 ^ i) cfgW.retryAfterMax)),
         some []) ∧
    (connect (List.replicate 3 (Except.error (Err.external "refused"))) cfgW).2 = none ∧
    (connect (List.replicate 3 (Except.error (Err.external "refused"))) cfgW).1.length = 3 :=
  C3_connect_backoff cfgW (Err.external "refused") [] 3 (by decide) (by decide)
    (by norm_num [cfgW])

/-- A job arrival contributes itself to the job list of an event list. -/
theorem jobsOf_arrival (j : Job) (evs : List Event) :
    jobsOf (Event.arrival j :: evs) = j :: jobsOf evs := by
  simp [jobsOf, List.filterMap_cons]

/-- A timer tick contributes no job. -/
theorem jobsOf_tick (evs : List Event) :
    jobsOf (Event.tick :: evs) = jobsOf evs := by
  simp [jobsOf, List.filterMap_cons]

/-- The codec call of a job runs without a type-assertion panic under
the given protocol (the codec may still report an encode error). -/
def EncOk (p : Protocol) (j : Job) : Prop :=
  ∃ out, j.write p j.metric j.value = Except.ok out

/-- write returns normally on every job whose codec call runs without a
type-assertion panic. -/
theorem write_ok (conn : Option Conn) (buf : List Byte) (j : Job) (config : Config)
    (h : EncOk config.proto j) : ∃ w, write conn buf j config = Except.ok w := by
  obtain ⟨⟨bs, oe⟩, h⟩ := h
  cases oe with
  | some e =>
      exact ⟨⟨conn, buf ++ bs, [], handleError e config.failFn⟩, by simp [write, h]⟩
  | none =>
      by_cases hth : ((buf ++ bs).length : Int) ≥ config.bufferSize
      · refine ⟨flushN conn (buf ++ bs) config
          (if buf.length = 0 then (buf ++ bs).length else buf.length), ?_⟩
        simp only [write, h]
        rw [if_pos hth]
      · refine ⟨⟨conn, buf ++ bs, [], Eff.nil⟩, ?_⟩
        simp only [write, h]
        rw [if_neg hth]

/-- write keeps a fresh always-succeeding connection open, on a job
whose codec call runs without a type-assertion panic. -/
theorem write_healthy (buf : List Byte) (j : Job) (config : Config)
    (h : EncOk config.proto j) :
    ∃ w, write (some []) buf j config = Except.ok w ∧ w.conn = some [] := by
  obtain ⟨⟨bs, oe⟩, h⟩ := h
  cases oe with
  | some e =>
      exact ⟨⟨some [], buf ++ bs, [], handleError e config.failFn⟩,
        by simp [write, h], rfl⟩
  | none =>
      by_cases hth : ((buf ++ bs).length : Int) ≥ config.bufferSize
      · refine ⟨flushN (some []) (buf ++ bs) config
          (if buf.length = 0 then (buf ++ bs).length else buf.length), ?_, ?_⟩
        · simp only [write, h]
          rw [if_pos hth]
        · simp [flushN, Conn.next]
      · refine ⟨⟨some [], buf ++ bs, [], Eff.nil⟩, ?_, rfl⟩
        simp only [write, h]
        rw [if_neg hth]

/-- The worker loop returns normally and hands every arriving job to
the buffering engine in order, for every connection behaviour and every
callback behaviour, as long as no codec call panics on a type
assertion. -/
theorem runEvents_ok (evs : List Event) :
    ∀ (conn : Option Conn) (buf : List Byte) (config : Config) (supply : List Conn),
      (∀ j ∈ jobsOf evs, EncOk config.proto j) →
      ∃ r, runEvents conn buf evs config supply = Except.ok r ∧
        r.processed = jobsOf evs := by
  induction evs with
  | nil =>
      intro conn buf config supply _
      exact ⟨_, rfl, rfl⟩
  | cons ev rest ih =>
      intro conn buf config supply h
      cases ev with
      | arrival j =>
          obtain ⟨w, hw⟩ := write_ok (ensureConn conn supply).conn buf j config
            (h j (by rw [jobsOf_arrival]; exact List.mem_cons_self j _))
          obtain ⟨r, hr, hp⟩ := ih w.conn w.buf config (ensureConn conn supply).supply
            (fun j2 hj2 => h j2 (by rw [jobsOf_arrival]; exact List.mem_cons_of_mem _ hj2))
          refine ⟨⟨(ensureConn conn supply).pre ++ Action.wrote j.metric :: r.actions,
            j :: r.processed, r.finalBuf, w.eff.app r.eff⟩, ?_, ?_⟩
          · simp only [runEvents, hw, hr]
          · rw [jobsOf_arrival]
            simp [hp]
      | tick =>
          obtain ⟨r, hr, hp⟩ := ih (flush (ensureConn conn supply).conn buf config).conn
            (flush (ensureConn conn supply).conn buf config).buf config
            (ensureConn conn supply).supply
            (fun j2 hj2 => h j2 (by rw [jobsOf_tick]; exact hj2))
          refine ⟨⟨(ensureConn conn supply).pre ++ Action.ticked :: r.actions, r.processed,
            r.finalBuf, (flush (ensureConn conn supply).conn buf config).eff.app r.eff⟩,
            ?_, ?_⟩
          · simp only [runEvents, hr]
          · rw [jobsOf_tick]
            simp [hp]

/-- Claim C7, counterexample: started with no connection and an event
list on which no job ever arrives and the flush timer never fires, the
worker still dials: the first recorded action is the connect call,
performed before any event has fired, because run dials at the top of
the loop before selecting on its event sources. -/
theorem C7_counterexample :
    (runEvents none [] [] cfg0 []).map (fun r => r.actions)
        = Except.ok [Action.dialed, Action.closedFlush] ∧
    Action.dialed ∈ [Action.dialed, Action.closedFlush] := by
  constructor
  · rfl
  · decide

/-- Claim C7 as amended: the worker dials whenever a loop iteration
begins with no open connection — immediately at startup before any
event has fired, and again after a connection loss — and the blocking
connect completes before the next event is processed: whenever the loop
starts disconnected its first recorded action is the dial; when it
starts connected and shuts down with no event, no dial happens at all. -/
theorem C7_dial_at_loop_top (buf : List Byte) (config : Config) (supply : List Conn) :
    (∀ (evs : List Event) (r : RunRes),
      runEvents none buf evs config supply = Except.ok r →
      r.actions.head? = some Action.dialed) ∧
    (∀ (c : Conn) (r : RunRes),
      runEvents (some c) buf [] config supply = Except.ok r →
      r.actions = [Action.closedFlush]) := by
  constructor
  · intro evs r hr
    cases evs with
    | nil =>
        simp only [runEvents] at hr
        cases hr
        rfl
    | cons ev rest =>
        cases ev with
        | arrival j =>
            simp only [runEvents] at hr
            cases hw : write (ensureConn none supply).conn buf j config with
            | error p => simp only [hw] at hr; exact Except.noConfusion hr
            | ok w =>
                simp only [hw] at hr
                cases hrec : runEvents w.conn w.buf rest config
                    (ensureConn none supply).supply with
                | error p => simp only [hrec] at hr; exact Except.noConfusion hr
                | ok r2 =>
                    simp only [hrec] at hr
                    cases hr
                    rfl
        | tick =>
            simp only [runEvents] at hr
            cases hrec : runEvents (flush (ensureConn none supply).conn buf config).conn
                (flush (ensureConn none supply).conn buf config).buf rest config
                (ensureConn none supply).supply with
            | error p => simp only [hrec] at hr; exact Except.noConfusion hr
            | ok r2 =>
                simp only [hrec] at hr
                cases hr
                rfl
  · intro c r hr
    simp only [runEvents] at hr
    cases hr
    rfl

/-- Claim C7, witness: a run that starts disconnected and receives one
timer tick dials first; a run that starts connected and receives
nothing never dials. -/
theorem C7_dial_at_loop_top_witness :
    ([Action.dialed, Action.ticked, Action.closedFlush] : List Action).head?
        = some Action.dialed ∧
    ([Action.closedFlush] : List Action) = [Action.closedFlush] :=
  ⟨(C7_dial_at_loop_top [] cfg0 []).1 [Event.tick]
      ⟨[Action.dialed, Action.ticked, Action.closedFlush], [], [], Eff.nil⟩ rfl,
   (C7_dial_at_loop_top [] cfg0 []).2 []
      ⟨[Action.closedFlush], [], [], Eff.nil⟩ rfl⟩

/-- On an always-succeeding connection supply the worker loop, started
disconnected or on a fresh connection, returns normally, hands every
arriving job to the buffering engine in order, ends its action trace
with the final close-path flush, and leaves an empty buffer. -/
theorem run_healthy (evs : List Event) :
    ∀ (conn : Option Conn) (buf : List Byte) (config : Config),
      (conn = none ∨ conn = some []) →
      (∀ j ∈ jobsOf evs, EncOk config.proto j) →
      ∃ r, runEvents conn buf evs config [] = Except.ok r ∧
        r.processed = jobsOf evs ∧
        (∃ a, r.actions = a ++ [Action.closedFlush]) ∧
        r.finalBuf = [] := by
  induction evs with
  | nil =>
      intro conn buf config hconn _
      rcases hconn with h | h <;> subst h <;>
        exact ⟨_, rfl, rfl, ⟨_, rfl⟩, by
          simp [runEvents, ensureConn, flush, flushN, Conn.next, List.drop_length]⟩
  | cons ev rest ih =>
      intro conn buf config hconn hjobs
      have hens : (ensureConn conn []).conn = some [] ∧ (ensureConn conn []).supply = [] := by
        rcases hconn with h | h <;> subst h <;> exact ⟨rfl, rfl⟩
      cases ev with
      | arrival j =>
          obtain ⟨w, hw, hwc⟩ := write_healthy buf j config
            (hjobs j (by rw [jobsOf_arrival]; exact List.mem_cons_self j _))
          obtain ⟨r, hr, hp, ⟨a, ha⟩, hf⟩ := ih (some []) w.buf config (Or.inr rfl)
            (fun j2 hj2 => hjobs j2
              (by rw [jobsOf_arrival]; exact List.mem_cons_of_mem _ hj2))
          refine ⟨⟨(ensureConn conn []).pre ++ Action.wrote j.metric :: r.actions,
            j :: r.processed, r.finalBuf, w.eff.app r.eff⟩, ?_, ?_, ?_, hf⟩
          · simp only [runEvents, hens.1, hw, hwc, hens.2, hr]
          · rw [jobsOf_arrival]
            simp [hp]
          · exact ⟨(ensureConn conn []).pre ++ Action.wrote j.metric :: a, by simp [ha]⟩
      | tick =>
          have hfl : (flush (some []) buf config).conn = some [] := by
            simp [flush, flushN, Conn.next]
          obtain ⟨r, hr, hp, ⟨a, ha⟩, hf⟩ := ih (some []) (flush (some []) buf config).buf
            config (Or.inr rfl)
            (fun j2 hj2 => hjobs j2 (by rw [jobsOf_tick]; exact hj2))
          refine ⟨⟨(ensureConn conn []).pre ++ Action.ticked :: r.actions, r.processed,
            r.finalBuf, (flush (some []) buf config).eff.app r.eff⟩, ?_, ?_, ?_, hf⟩
          · simp only [runEvents, hens.1, hfl, hens.2, hr]
          · rw [jobsOf_tick]
            exact hp
          · exact ⟨(ensureConn conn []).pre ++ Action.ticked :: a, by simp [ha]⟩

/-- backendClose never lets a panic escape, whatever the queue state. -/
theorem backendClose_no_panic (q : Queue) : (backendClose q).2 = none := by
  unfold backendClose
  cases closeChan q <;> rfl

/-- Claim C4: Close signals the queue closed — afterwards any
submission leaves the queue unchanged and reports exactly one
queue-closed failure naming the metric — and the worker, receiving the
channel close after the accepted events, returns normally having handed
every accepted job to the buffering engine in order, ends with the
final full flush (which empties the buffer, the connection accepting
the writes), and the deferred connection close runs at exit; closing a
second time also lets no panic escape. -/
theorem C4_close (evs : List Event) (config : Config) (q : Queue)
    (hjobs : ∀ j ∈ jobsOf evs, EncOk config.proto j) :
    (∃ r, runEvents none [] evs config [] = Except.ok r ∧
        r.processed = jobsOf evs ∧
        r.actions.getLast? = some Action.closedFlush ∧
        r.finalBuf = []) ∧
    (backendClose q).2 = none ∧
    (backendClose (backendClose q).1).2 = none ∧
    (backendClose q).1.closed = true ∧
    (∀ (j : Job) (fail : FailSpec),
      (enqueue j (backendClose q).1 fail).1 = (backendClose q).1 ∧
      (enqueue j (backendClose q).1 fail).2.1 = [Err.queueClosed j.metric]) := by
  have hcl : (backendClose q).1.closed = true := by
    cases hq : q.closed <;> simp [backendClose, closeChan, hq]
  refine ⟨?_, backendClose_no_panic q, backendClose_no_panic _, hcl, ?_⟩
  · obtain ⟨r, hr, hp, ⟨a, ha⟩, hf⟩ := run_healthy evs none [] config (Or.inl rfl) hjobs
    refine ⟨r, hr, hp, ?_, hf⟩
    rw [ha, List.getLast?_append_cons]
    rfl
  · intro j fail
    cases hf : fail (Err.queueClosed j.metric) <;>
      simp [enqueue, chanTrySend, hcl, hf]

/-- Claim C4, witness: one accepted job and one timer tick before the
close, on the one-byte codec; the closed queue rejects a further
submission. -/
theorem C4_close_witness :
    (∃ r, runEvents none [] [Event.arrival (setJob "m" 0), Event.tick] cfgW []
        = Except.ok r ∧
        r.processed = jobsOf [Event.arrival (setJob "m" 0), Event.tick] ∧
        r.actions.getLast? = some Action.closedFlush ∧
        r.finalBuf = []) ∧
    (backendClose ⟨1, [], false⟩).2 = none ∧
    (backendClose (backendClose ⟨1, [], false⟩).1).2 = none ∧
    (backendClose ⟨1, [], false⟩).1.closed = true ∧
    (∀ (j : Job) (fail : FailSpec),
      (enqueue j (backendClose ⟨1, [], false⟩).1 fail).1 = (backendClose ⟨1, [], false⟩).1 ∧
      (enqueue j (backendClose ⟨1, [], false⟩).1 fail).2.1 = [Err.queueClosed j.metric]) :=
  C4_close [Event.arrival (setJob "m" 0), Event.tick] cfgW ⟨1, [], false⟩
    (fun j hj => by
      simp only [jobsOf, List.filterMap_cons] at hj
      simp at hj
      subst hj
      exact ⟨([1], none), rfl⟩)

/-- handleError always invokes the callback with exactly the given
error, whatever the callback then does. -/
theorem handleError_reported (e : Err) (f : FailSpec) :
    (handleError e f).reported = [e] := rfl

/-- Step results with equal erasures agree on everything but the
fallback-sink output. -/
theorem writeResEraseParts {r s : WriteRes} (h : r.erase = s.erase) :
    r.conn = s.conn ∧ r.buf = s.buf ∧ r.sent = s.sent ∧
    r.eff.reported = s.eff.reported := by
  refine ⟨?_, ?_, ?_, ?_⟩
  · have h2 := congrArg WriteRes.conn h
    exact h2
  · have h2 := congrArg WriteRes.buf h
    exact h2
  · have h2 := congrArg WriteRes.sent h
    exact h2
  · have h2 := congrArg (fun t => t.eff.reported) h
    exact h2

/-- Run results with equal erasures agree on everything but the
fallback-sink output. -/
theorem runResEraseParts {r s : RunRes} (h : r.erase = s.erase) :
    r.actions = s.actions ∧ r.processed = s.processed ∧ r.finalBuf = s.finalBuf ∧
    r.eff.reported = s.eff.reported := by
  refine ⟨?_, ?_, ?_, ?_⟩
  · have h2 := congrArg RunRes.actions h
    exact h2
  · have h2 := congrArg RunRes.processed h
    exact h2
  · have h2 := congrArg RunRes.finalBuf h
    exact h2
  · have h2 := congrArg (fun t => t.eff.reported) h
    exact h2

/-- The flush path is unchanged, apart from fallback-sink output, by
any configuration difference (it reads only the callback). -/
theorem flushN_erase_congr (conn : Option Conn) (buf : List Byte) (c1 c2 : Config)
    (n : Nat) :
    (flushN conn buf c1 n).erase = (flushN conn buf c2 n).erase := by
  cases conn with
  | none => rfl
  | some c =>
      simp only [flushN]
      cases hd : (Conn.next c).1.deadlineErr with
      | some e => simp only [hd, WriteRes.erase, handleError_reported]
      | none =>
          simp only [hd]
          cases hw : (Conn.next c).1.writeErr with
          | some e => simp only [hw, WriteRes.erase, handleError_reported]
          | none => simp only [hw]

/-- The buffering step is unchanged, apart from fallback-sink output,
by the configured callback, for configurations agreeing on codec and
threshold. -/
theorem write_erase_congr (conn : Option Conn) (buf : List Byte) (j : Job)
    (c1 c2 : Config) (hp : c1.proto = c2.proto) (hb : c1.bufferSize = c2.bufferSize) :
    (write conn buf j c1).map WriteRes.erase = (write conn buf j c2).map WriteRes.erase := by
  simp only [write, hp, hb]
  cases h : j.write c2.proto j.metric j.value with
  | error p => rfl
  | ok out =>
      obtain ⟨bs, oe⟩ := out
      cases oe with
      | some e =>
          dsimp only
          simp only [Except.map, WriteRes.erase, handleError_reported]
      | none =>
          dsimp only
          by_cases hth : ((buf ++ bs).length : Int) ≥ c2.bufferSize
          · rw [if_pos hth, if_pos hth]
            simp only [Except.map]
            exact congrArg Except.ok (flushN_erase_congr conn (buf ++ bs) c1 c2 _)
          · rw [if_neg hth, if_neg hth]

/-- The worker loop is unchanged, apart from fallback-sink output, by
the configured callback, for configurations agreeing on codec and
threshold. -/
theorem runEvents_erase_congr (evs : List Event) :
    ∀ (conn : Option Conn) (buf : List Byte) (supply : List Conn) (c1 c2 : Config),
      c1.proto = c2.proto → c1.bufferSize = c2.bufferSize →
      (runEvents conn buf evs c1 supply).map RunRes.erase
        = (runEvents conn buf evs c2 supply).map RunRes.erase := by
  induction evs with
  | nil =>
      intro conn buf supply c1 c2 hp hb
      obtain ⟨-, hbuf, -, hrep⟩ := writeResEraseParts
        (flushN_erase_congr (ensureConn conn supply).conn buf c1 c2 buf.length)
      simp only [runEvents, Except.map, flush, RunRes.erase, hbuf, hrep]
  | cons ev rest ih =>
      intro conn buf supply c1 c2 hp hb
      cases ev with
      | arrival j =>
          have hwr := write_erase_congr (ensureConn conn supply).conn buf j c1 c2 hp hb
          simp only [runEvents]
          cases h1 : write (ensureConn conn supply).conn buf j c1 with
          | error p =>
              cases h2 : write (ensureConn conn supply).conn buf j c2 with
              | error p2 =>
                  rw [h1, h2] at hwr
                  simp only [Except.map] at hwr
                  cases hwr
                  rfl
              | ok w2 =>
                  rw [h1, h2] at hwr
                  simp only [Except.map] at hwr
                  exact Except.noConfusion hwr
          | ok w1 =>
              cases h2 : write (ensureConn conn supply).conn buf j c2 with
              | error p2 =>
                  rw [h1, h2] at hwr
                  simp only [Except.map] at hwr
                  exact Except.noConfusion hwr
              | ok w2 =>
                  rw [h1, h2] at hwr
                  simp only [Except.map] at hwr
                  obtain ⟨hconn, hbuf, -, hrep⟩ := writeResEraseParts
                    (Except.ok.inj hwr)
                  dsimp only
                  rw [hconn, hbuf]
                  have hih := ih w2.conn w2.buf (ensureConn conn supply).supply c1 c2 hp hb
                  cases h3 : runEvents w2.conn w2.buf rest c1 (ensureConn conn supply).supply with
                  | error p =>
                      cases h4 : runEvents w2.conn w2.buf rest c2
                          (ensureConn conn supply).supply with
                      | error p2 =>
                          rw [h3, h4] at hih
                          simp only [Except.map] at hih
                          cases hih
                          rfl
                      | ok r2 =>
                          rw [h3, h4] at hih
                          simp only [Except.map] at hih
                          exact Except.noConfusion hih
                  | ok r1 =>
                      cases h4 : runEvents w2.conn w2.buf rest c2
                          (ensureConn conn supply).supply with
                      | error p2 =>
                          rw [h3, h4] at hih
                          simp only [Except.map] at hih
                          exact Except.noConfusion hih
                      | ok r2 =>
                          rw [h3, h4] at hih
                          simp only [Except.map] at hih
                          obtain ⟨hacts, hproc, hfb, hrrep⟩ := runResEraseParts
                            (Except.ok.inj hih)
                          simp only [Except.map, RunRes.erase, Eff.app, hacts, hproc, hfb,
                            hrep, hrrep]
      | tick =>
          obtain ⟨hfc, hfb, -, hfrep⟩ := writeResEraseParts
            (flushN_erase_congr (ensureConn conn supply).conn buf c1 c2 buf.length)
          simp only [runEvents, flush]
          rw [hfc, hfb]
          have hih := ih (flushN (ensureConn conn supply).conn buf c2 buf.length).conn
            (flushN (ensureConn conn supply).conn buf c2 buf.length).buf
            (ensureConn conn supply).supply c1 c2 hp hb
          cases h3 : runEvents (flushN (ensureConn conn supply).conn buf c2 buf.length).conn
              (flushN (ensureConn conn supply).conn buf c2 buf.length).buf rest c1
              (ensureConn conn supply).supply with
          | error p =>
              cases h4 : runEvents (flushN (ensureConn conn supply).conn buf c2 buf.length).conn
                  (flushN (ensureConn conn supply).conn buf c2 buf.length).buf rest c2
                  (ensureConn conn supply).supply with
              | error p2 =>
                  rw [h3, h4] at hih
                  simp only [Except.map] at hih
                  cases hih
                  rfl
              | ok r2 =>
                  rw [h3, h4] at hih
                  simp only [Except.map] at hih
                  exact Except.noConfusion hih
          | ok r1 =>
              cases h4 : runEvents (flushN (ensureConn conn supply).conn buf c2 buf.length).conn
                  (flushN (ensureConn conn supply).conn buf c2 buf.length).buf rest c2
                  (ensureConn conn supply).supply with
              | error p2 =>
                  rw [h3, h4] at hih
                  simp only [Except.map] at hih
                  exact Except.noConfusion hih
              | ok r2 =>
                  rw [h3, h4] at hih
                  simp only [Except.map] at hih
                  obtain ⟨hacts, hproc, hfb2, hrrep⟩ := runResEraseParts
                    (Except.ok.inj hih)
                  simp only [Except.map, RunRes.erase, Eff.app, hacts, hproc, hfb2,
                    hfrep, hrrep]

/-- Claim C6: a panic inside the failure callback is caught by the
worker — the callback still receives the error, the panic value and a
stack trace are written to the fallback stderr sink — and the worker
loop continues unaffected: for any two callback behaviours the entire
run (actions, processed jobs, buffers, reported errors, termination)
is identical apart from what lands on the fallback sink. -/
theorem C6_callback_panic_isolated :
    (∀ (e : Err) (f : FailSpec) (v : String), f e = some v →
      handleError e f = ⟨[e], [printPanic v, stackTraceLine]⟩) ∧
    (∀ (evs : List Event) (conn : Option Conn) (buf : List Byte) (supply : List Conn)
        (config : Config) (f g : FailSpec),
      (runEvents conn buf evs { config with fail := some f } supply).map RunRes.erase
        = (runEvents conn buf evs { config with fail := some g } supply).map RunRes.erase) := by
  constructor
  · intro e f v hv
    simp [handleError, hv]
  · intro evs conn buf supply config f g
    exact runEvents_erase_congr evs conn buf supply _ _ rfl rfl

/-- Claim C6, witness: a callback that panics on every error still
yields the caught-panic diagnostic on the fallback sink. -/
theorem C6_callback_panic_isolated_witness :
    handleError (Err.external "write timeout") (fun _ => some "user callback bug")
      = ⟨[Err.external "write timeout"],
         [printPanic "user callback bug", stackTraceLine]⟩ :=
  C6_callback_panic_isolated.1 (Err.external "write timeout")
    (fun _ => some "user callback bug") "user callback bug" rfl

/-- A job submitted through the public API: built by backend.Set,
backend.Add or backend.Observe. -/
def apiJob (j : Job) : Prop :=
  (∃ m v, j = setJob m v) ∨ (∃ m v, j = addJob m v) ∨ (∃ m v, j = observeJob m v)

/-- API-built jobs encode without type-assertion panics under every
codec. -/
theorem apiJob_encOk (j : Job) (p : Protocol) (h : apiJob j) : EncOk p j := by
  rcases h with ⟨m, v, rfl⟩ | ⟨m, v, rfl⟩ | ⟨m, v, rfl⟩ <;> exact ⟨_, rfl⟩

/-- Claim C10: every Job enqueued through the public API pairs its
value with the matching writer — Set and Add pair a float64 with the
set and add writers, Observe pairs a time.Duration with the observe
writer — so the type assertions performed when the worker encodes the
Job never panic: each API job's codec call returns the protocol call's
result, and a worker run fed only API jobs never aborts on a
type-assertion panic. -/
theorem C10_type_assertions_safe :
    (∀ (p : Protocol) (m : Metric) (v : Nat),
      (setJob m v).write p (setJob m v).metric (setJob m v).value
        = Except.ok (p.writeSet m v)) ∧
    (∀ (p : Protocol) (m : Metric) (v : Nat),
      (addJob m v).write p (addJob m v).metric (addJob m v).value
        = Except.ok (p.writeAdd m v)) ∧
    (∀ (p : Protocol) (m : Metric) (v : Int),
      (observeJob m v).write p (observeJob m v).metric (observeJob m v).value
        = Except.ok (p.writeObserve m v)) ∧
    (∀ (evs : List Event) (conn : Option Conn) (buf : List Byte) (config : Config)
        (supply : List Conn),
      (∀ j ∈ jobsOf evs, apiJob j) →
      ∃ r, runEvents conn buf evs config supply = Except.ok r) := by
  refine ⟨fun p m v => rfl, fun p m v => rfl, fun p m v => rfl, ?_⟩
  intro evs conn buf config supply h
  obtain ⟨r, hr, -⟩ := runEvents_ok evs conn buf config supply
    (fun j hj => apiJob_encOk j config.proto (h j hj))
  exact ⟨r, hr⟩

/-- Claim C10, witness: a set job of the API evaluated on the one-byte
codec, and a run over one arrival of each API kind. -/
theorem C10_type_assertions_safe_witness :
    (setJob "a" 3).write protoOne (setJob "a" 3).metric (setJob "a" 3).value
      = Except.ok (protoOne.writeSet "a" 3) ∧
    ∃ r, runEvents none []
        [Event.arrival (setJob "a" 3), Event.arrival (addJob "b" 4),
         Event.arrival (observeJob "c" 5)] cfgW [] = Except.ok r :=
  ⟨C10_type_assertions_safe.1 protoOne "a" 3,
   C10_type_assertions_safe.2.2.2
     [Event.arrival (setJob "a" 3), Event.arrival (addJob "b" 4),
      Event.arrival (observeJob "c" 5)] none [] cfgW []
     (fun j hj => by
       simp only [jobsOf, List.filterMap_cons] at hj
       simp at hj
       rcases hj with h | h | h
       · exact Or.inl ⟨"a", 3, h⟩
       · exact Or.inr (Or.inl ⟨"b", 4, h⟩)
       · exact Or.inr (Or.inr ⟨"c", 5, h⟩))⟩

end NetStats
